import Mathlib

/-!
Verification of the YouTrack Articles module (youtrack_mcp/api/articles.py and
youtrack_mcp/tools/articles.py) against its specification.

The embedding models JSON values as the inductive type JVal, the generic HTTP
client collaborator as a function from path and query parameters to either a
parsed JSON value or an exception message, and every operation as a pure
function that also returns the list of HTTP GET requests it issued, so that
claims about paths, query parameters and call counts can be stated directly.
-/

/-- A JSON value, as produced by the HTTP layer and consumed by validation. -/
inductive JVal where
  | str : String → JVal
  | int : Int → JVal
  | bool : Bool → JVal
  | null : JVal
  | arr : List JVal → JVal
  | obj : List (String × JVal) → JVal
deriving Repr

/-- Query parameters: an insertion-ordered mapping from key to value, as a
Python dict literal builds it. -/
abbrev Params := List (String × JVal)

/-- The generic HTTP client collaborator: GET(path, params) either returns
parsed JSON or raises an exception carrying a message. -/
abbrev HttpGet := String → Params → Except String JVal

/-- Escape one character for JSON string output. -/
def escapeChar (c : Char) : String :=
  if c = '\"' then "\\\""
  else if c = '\\' then "\\\\"
  else if c = '\n' then "\\n"
  else String.singleton c

/-- Escape a string for JSON output. -/
def escapeString (s : String) : String :=
  String.join (s.toList.map escapeChar)

mutual

/-- Serialize a JVal to JSON text. -/
def JVal.encode : JVal → String
  | .str s => "\"" ++ escapeString s ++ "\""
  | .int n => toString n
  | .bool b => if b then "true" else "false"
  | .null => "null"
  | .arr xs => "[" ++ encodeItems xs ++ "]"
  | .obj fs => "\x7b" ++ encodeFields fs ++ "\x7d"

/-- Serialize the comma-separated items of a JSON array. -/
def encodeItems : List JVal → String
  | [] => ""
  | [x] => JVal.encode x
  | x :: y :: xs => JVal.encode x ++ "," ++ encodeItems (y :: xs)

/-- Serialize the comma-separated members of a JSON object. -/
def encodeFields : List (String × JVal) → String
  | [] => ""
  | [(k, v)] => "\"" ++ escapeString k ++ "\":" ++ JVal.encode v
  | (k, v) :: y :: xs =>
      "\"" ++ escapeString k ++ "\":" ++ JVal.encode v ++ "," ++ encodeFields (y :: xs)

end

/-- Modelled from the spec: format_json_response, the JSON response formatting
helper from youtrack_mcp.utils, whose source is not under src/. The spec lists
it as an out-of-scope collaborator that serializes the result value to a
JSON-encoded text string; it is modelled as plain JSON serialization. -/
def format_json_response (v : JVal) : String :=
  JVal.encode v

/-- The structured error payload the tool layer produces on failure. -/
def errObj (e : String) : JVal :=
  .obj [("error", .str e)]

/-- The attribute names declared on the Article model; any response key not in
this list is an extra attribute kept by the extra-allow configuration. -/
def articleModelNames : List String :=
  ["id", "idReadable", "summary", "content", "project", "reporter",
   "updatedBy", "created", "updated", "hasChildren", "hasStar"]

/-- Model for a YouTrack knowledge base article (pydantic BaseModel with
model_config extra allow). Association fields hold open-ended mappings; extra
holds the attributes of the response not named on the model. -/
structure Article where
  id : String
  idReadable : Option String := none
  summary : Option String := none
  content : Option String := none
  project : Option Params := none
  reporter : Option Params := none
  updatedBy : Option Params := none
  created : Option Int := none
  updated : Option Int := none
  hasChildren : Option Bool := none
  hasStar : Option Bool := none
  extra : Params := []
deriving Repr

/-- Extract an optional string field: absent or null maps to none, a string
maps to some, anything else is a validation error. -/
def getOptStr (o : Params) (k : String) : Except String (Option String) :=
  match o.lookup k with
  | none => .ok none
  | some .null => .ok none
  | some (.str s) => .ok (some s)
  | some _ => .error ("validation error for Article field " ++ k)

/-- Extract an optional integer field. -/
def getOptInt (o : Params) (k : String) : Except String (Option Int) :=
  match o.lookup k with
  | none => .ok none
  | some .null => .ok none
  | some (.int n) => .ok (some n)
  | some _ => .error ("validation error for Article field " ++ k)

/-- Extract an optional boolean field. -/
def getOptBool (o : Params) (k : String) : Except String (Option Bool) :=
  match o.lookup k with
  | none => .ok none
  | some .null => .ok none
  | some (.bool b) => .ok (some b)
  | some _ => .error ("validation error for Article field " ++ k)

/-- Extract an optional open-ended mapping field (Dict of str to Any). -/
def getOptObj (o : Params) (k : String) : Except String (Option Params) :=
  match o.lookup k with
  | none => .ok none
  | some .null => .ok none
  | some (.obj fs) => .ok (some fs)
  | some _ => .error ("validation error for Article field " ++ k)

/-- Extract a required string field: it must be present and a string. -/
def getReqStr (o : Params) (k : String) : Except String String :=
  match o.lookup k with
  | some (.str s) => .ok s
  | some _ => .error ("validation error for Article field " ++ k)
  | none => .error ("validation error for Article: " ++ k ++ " missing")

namespace Article

/-- Validate the members of a response object into an Article record. -/
def validateObj (o : Params) : Except String Article := do
      let id ← getReqStr o "id"
      let idReadable ← getOptStr o "idReadable"
      let summary ← getOptStr o "summary"
      let content ← getOptStr o "content"
      let project ← getOptObj o "project"
      let reporter ← getOptObj o "reporter"
      let updatedBy ← getOptObj o "updatedBy"
      let created ← getOptInt o "created"
      let updated ← getOptInt o "updated"
      let hasChildren ← getOptBool o "hasChildren"
      let hasStar ← getOptBool o "hasStar"
      Except.ok
        { id, idReadable, summary, content, project, reporter, updatedBy,
          created, updated, hasChildren, hasStar,
          extra := o.filter (fun p => !(articleModelNames.contains p.1)) }

/-- Article.model_validate: validate a parsed JSON value into an Article
record; the required id must be a string, declared optional fields must match
their declared types, and all remaining keys are preserved as extras. -/
def model_validate (v : JVal) : Except String Article :=
  match v with
  | .obj o => validateObj o
  | _ => .error "validation error for Article: input is not an object"

/-- Wrap an optional string back into a JSON value, None becoming null. -/
def dumpStr : Option String → JVal
  | none => .null
  | some s => .str s

/-- Wrap an optional integer back into a JSON value. -/
def dumpInt : Option Int → JVal
  | none => .null
  | some n => .int n

/-- Wrap an optional boolean back into a JSON value. -/
def dumpBool : Option Bool → JVal
  | none => .null
  | some b => .bool b

/-- Wrap an optional mapping back into a JSON value. -/
def dumpObj : Option Params → JVal
  | none => .null
  | some fs => .obj fs

/-- Article.model_dump: serialize the record back to a plain mapping, the
declared fields in declaration order followed by the preserved extras. -/
def model_dump (a : Article) : Params :=
  [("id", .str a.id),
   ("idReadable", dumpStr a.idReadable),
   ("summary", dumpStr a.summary),
   ("content", dumpStr a.content),
   ("project", dumpObj a.project),
   ("reporter", dumpObj a.reporter),
   ("updatedBy", dumpObj a.updatedBy),
   ("created", dumpInt a.created),
   ("updated", dumpInt a.updated),
   ("hasChildren", dumpBool a.hasChildren),
   ("hasStar", dumpBool a.hasStar)] ++ a.extra

end Article

/-- Validate each element of a response list in order, as the Python list
comprehension does: the first failing element aborts the whole validation. -/
def validateAll : List JVal → Except String (List Article)
  | [] => .ok []
  | x :: xs => do
      let a ← Article.model_validate x
      let rest ← validateAll xs
      Except.ok (a :: rest)

namespace ArticlesClient

/-- The default field-selection string: the fixed base set of attributes, with
content appended only when include_content is true. -/
def default_fields (include_content : Bool := false) : String :=
  let base :=
    "id,idReadable,summary,project(id,shortName)," ++
    "reporter(id,login,name),updated,created,hasChildren,hasStar"
  base ++ (if include_content then ",content" else "")

/-- Python truthiness of the fields argument in the expression
fields or default: None and the empty string both fall back to the default. -/
def fieldsOrDefault (fields : Option String) (include_content : Bool) : String :=
  match fields with
  | none => default_fields include_content
  | some f => if f = "" then default_fields include_content else f

/-- Build the query parameters of a list request: fields first, then the
dollar-prefixed pagination keys only for values that are not None. -/
def listParams (top skip : Option Int) (include_content : Bool)
    (fields : Option String) : Params :=
  [("fields", .str (fieldsOrDefault fields include_content))]
    ++ (match top with | some t => [("$top", JVal.int t)] | none => [])
    ++ (match skip with | some s => [("$skip", JVal.int s)] | none => [])

/-- GET /api/articles: one request against the global articles path, then
elementwise validation of the returned list. The first component records the
requests issued to the HTTP client. -/
def list_articles (g : HttpGet) (top skip : Option Int := none)
    (include_content : Bool := false) (fields : Option String := none) :
    List (String × Params) × Except String (List Article) :=
  let params := listParams top skip include_content fields
  ([("articles", params)],
    (g "articles" params).bind fun resp =>
      match resp with
      | .arr items => validateAll items
      | _ => .error "validation error: response is not a list")

/-- GET /api/articles/(articleID): fetch one article by id and validate it. -/
def get_article (g : HttpGet) (article_id : String)
    (include_content : Bool := true) (fields : Option String := none) :
    List (String × Params) × Except String Article :=
  let params : Params :=
    [("fields", .str (fieldsOrDefault fields include_content))]
  ([("articles/" ++ article_id, params)],
    (g ("articles/" ++ article_id) params).bind Article.model_validate)

/-- GET /api/articles/(articleID)/childArticles: list the sub-articles of a
given article. -/
def list_child_articles (g : HttpGet) (article_id : String)
    (top skip : Option Int := none) (include_content : Bool := false)
    (fields : Option String := none) :
    List (String × Params) × Except String (List Article) :=
  let params := listParams top skip include_content fields
  ([("articles/" ++ article_id ++ "/childArticles", params)],
    (g ("articles/" ++ article_id ++ "/childArticles") params).bind fun resp =>
      match resp with
      | .arr items => validateAll items
      | _ => .error "validation error: response is not a list")

/-- GET /api/admin/projects/(projectID)/articles: list the articles of a
specific project. -/
def list_project_articles (g : HttpGet) (project_id : String)
    (top skip : Option Int := none) (include_content : Bool := false)
    (fields : Option String := none) :
    List (String × Params) × Except String (List Article) :=
  let params := listParams top skip include_content fields
  ([("admin/projects/" ++ project_id ++ "/articles", params)],
    (g ("admin/projects/" ++ project_id ++ "/articles") params).bind fun resp =>
      match resp with
      | .arr items => validateAll items
      | _ => .error "validation error: response is not a list")

end ArticlesClient

/-- Python truthiness of an optional string argument: None and the empty
string are falsy, every other string is truthy. -/
def truthyOptStr : Option String → Bool
  | none => false
  | some s => s != ""

namespace ArticleTools

/-- The close behavior of the underlying HTTP client: none models a client
without a close attribute; some r models calling close, which either succeeds
or raises with a message. -/
abbrev CloseImpl := Option (Except String Unit)

/-- ArticleTools.close: if the client has a close attribute, call it and
swallow (log only) any exception; the result is always a normal return. The
Except codomain makes a hypothetical propagated exception representable, and
the theorem shows it never occurs. -/
def close (closeImpl : CloseImpl) : Except String Unit :=
  match closeImpl with
  | none => .ok ()
  | some r =>
      match r with
      | .ok () => .ok ()
      | .error _ => .ok ()

/-- ArticleTools.get_articles: list articles, optionally filtered by project;
a truthy project id delegates to the project-scoped listing, otherwise the
global listing. Any exception from below is converted into an error payload.
Returns the issued requests together with the JSON text response. -/
def get_articles (g : HttpGet) (project_id : Option String := none)
    (limit : Int := 20) (skip : Int := 0) (include_content : Bool := false)
    (fields : Option String := none) : List (String × Params) × String :=
  let res :=
    if truthyOptStr project_id then
      ArticlesClient.list_project_articles g (project_id.getD "")
        (some limit) (some skip) include_content fields
    else
      ArticlesClient.list_articles g
        (some limit) (some skip) include_content fields
  (res.1,
    match res.2 with
    | .ok arts =>
        format_json_response (.arr (arts.map fun a => .obj a.model_dump))
    | .error e => format_json_response (errObj e))

/-- ArticleTools.get_article: fetch a single article by id. A falsy id (the
empty string, or None for a missing value) short-circuits with the required-id
error before any remote call. Any exception from below is converted into an
error payload. -/
def get_article (g : HttpGet) (article_id : Option String)
    (include_content : Bool := true) (fields : Option String := none) :
    List (String × Params) × String :=
  if truthyOptStr article_id then
    let res := ArticlesClient.get_article g (article_id.getD "")
      include_content fields
    (res.1,
      match res.2 with
      | .ok a => format_json_response (.obj a.model_dump)
      | .error e => format_json_response (errObj e))
  else
    ([], format_json_response (errObj "Article ID is required"))

/-- ArticleTools.get_article_children: list the sub-articles of an article,
with the same falsy-id short circuit and the same error conversion. -/
def get_article_children (g : HttpGet) (article_id : Option String)
    (limit : Int := 20) (skip : Int := 0) (include_content : Bool := false)
    (fields : Option String := none) : List (String × Params) × String :=
  if truthyOptStr article_id then
    let res := ArticlesClient.list_child_articles g (article_id.getD "")
      (some limit) (some skip) include_content fields
    (res.1,
      match res.2 with
      | .ok arts =>
          format_json_response (.arr (arts.map fun a => .obj a.model_dump))
      | .error e => format_json_response (errObj e))
  else
    ([], format_json_response (errObj "Article ID is required"))

end ArticleTools

/-! Helper lemmas shared by several claim theorems. -/

/-- Sequencing in the Except monad succeeds only through a successful first
step. -/
theorem exceptBind_ok {α β : Type} {x : Except String α}
    {f : α → Except String β} {b : β}
    (h : (do let a ← x; f a) = Except.ok b) :
    ∃ a, x = Except.ok a ∧ f a = Except.ok b := by
  cases x with
  | ok v => exact ⟨v, rfl, h⟩
  | error e => exact (Except.noConfusion h)

/-- The single request a tool-level listing call issues: the path selected by
the truthiness of the project id, with the tool-level pagination integers
always wrapped into the parameters. -/
theorem get_articles_calls (g : HttpGet) (pid : Option String)
    (limit skip : Int) (ic : Bool) (f : Option String) :
    (ArticleTools.get_articles g pid limit skip ic f).1
      = [(if truthyOptStr pid then
            "admin/projects/" ++ pid.getD "" ++ "/articles"
          else "articles",
          ArticlesClient.listParams (some limit) (some skip) ic f)] := by
  cases h : truthyOptStr pid <;>
    simp [ArticleTools.get_articles, h, ArticlesClient.list_articles,
      ArticlesClient.list_project_articles]

/-- Lookup of the pagination keys in freshly built list parameters. -/
theorem listParams_pagination (top skip : Option Int) (ic : Bool)
    (f : Option String) :
    (ArticlesClient.listParams top skip ic f).lookup "$top" = top.map JVal.int
    ∧ (ArticlesClient.listParams top skip ic f).lookup "$skip"
        = skip.map JVal.int := by
  cases top <;> cases skip <;>
    simp [ArticlesClient.listParams, List.lookup]

/-- C9: for every state of the underlying HTTP client (close absent, close
succeeding, or close raising), ArticleTools.close returns normally with no
value; a raised exception during release is swallowed, and a client without a
close operation makes it a no-op. -/
theorem close_never_raises (impl : ArticleTools.CloseImpl) :
    ArticleTools.close impl = .ok () := by
  match impl with
  | none => rfl
  | some (.ok ()) => rfl
  | some (.error e) => rfl

/-- C2: calling get_article or get_article_children with a missing (None) or
empty article id returns the JSON text of the object with the single member
error mapped to the string Article ID is required, and issues zero requests to
the remote HTTP client. -/
theorem empty_article_id_no_remote_call (g : HttpGet) (ic : Bool)
    (limit skip : Int) (f : Option String) :
    ArticleTools.get_article g none ic f
        = ([], format_json_response (errObj "Article ID is required"))
    ∧ ArticleTools.get_article g (some "") ic f
        = ([], format_json_response (errObj "Article ID is required"))
    ∧ ArticleTools.get_article_children g none limit skip ic f
        = ([], format_json_response (errObj "Article ID is required"))
    ∧ ArticleTools.get_article_children g (some "") limit skip ic f
        = ([], format_json_response (errObj "Article ID is required")) :=
  ⟨rfl, rfl, rfl, rfl⟩

/-- C10: calling get_articles with the empty string as project id behaves
exactly like omitting the project id: the issued request targets the global
articles path and no validation error is produced locally. -/
theorem empty_project_id_global_path (g : HttpGet) (limit skip : Int)
    (ic : Bool) (f : Option String) :
    ArticleTools.get_articles g (some "") limit skip ic f
        = ArticleTools.get_articles g none limit skip ic f
    ∧ (ArticleTools.get_articles g (some "") limit skip ic f).1.map Prod.fst
        = ["articles"] := by
  constructor
  · rfl
  · rfl

/-- C5: when a non-empty project id is supplied to get_articles the request is
issued against the project-scoped path admin/projects/(id)/articles, and when
the project id is omitted the request is issued against the global articles
path. -/
theorem project_scoped_path (g : HttpGet) (pid : String) (limit skip : Int)
    (ic : Bool) (f : Option String) (h : pid ≠ "") :
    (ArticleTools.get_articles g (some pid) limit skip ic f).1.map Prod.fst
        = ["admin/projects/" ++ pid ++ "/articles"]
    ∧ (ArticleTools.get_articles g none limit skip ic f).1.map Prod.fst
        = ["articles"] := by
  constructor
  · rw [get_articles_calls]
    simp [truthyOptStr, h]
  · rfl

/-- Witness for C5 at the concrete project id P. -/
theorem project_scoped_path_witness :
    ("P" : String) ≠ ""
    ∧ ((ArticleTools.get_articles (fun _ _ => .error "x") (some "P")
          20 0 false none).1.map Prod.fst
        = ["admin/projects/P/articles"]
    ∧ (ArticleTools.get_articles (fun _ _ => .error "x") none
          20 0 false none).1.map Prod.fst
        = ["articles"]) :=
  ⟨by decide, project_scoped_path (fun _ _ => .error "x") "P" 20 0 false none
    (by decide)⟩

/-- C1: for each of the three tool operations, whenever the layer below (the
HTTP client or response-schema validation, whose exceptions are exactly the
error results of the ArticlesClient methods) raises an exception with message
e during the call, the operation does not propagate it but returns the JSON
text of the object with the single member error mapped to e. -/
theorem error_mapping_all_ops (g : HttpGet) (e : String) (pid aid : String)
    (limit skip : Int) (ic ic2 : Bool) (f : Option String)
    (hpid : pid ≠ "") (haid : aid ≠ "")
    (h1 : (ArticlesClient.list_articles g (some limit) (some skip) ic f).2
        = .error e)
    (h2 : (ArticlesClient.list_project_articles g pid
        (some limit) (some skip) ic f).2 = .error e)
    (h3 : (ArticlesClient.get_article g aid ic2 f).2 = .error e)
    (h4 : (ArticlesClient.list_child_articles g aid
        (some limit) (some skip) ic f).2 = .error e) :
    (ArticleTools.get_articles g none limit skip ic f).2
        = format_json_response (errObj e)
    ∧ (ArticleTools.get_articles g (some pid) limit skip ic f).2
        = format_json_response (errObj e)
    ∧ (ArticleTools.get_article g (some aid) ic2 f).2
        = format_json_response (errObj e)
    ∧ (ArticleTools.get_article_children g (some aid) limit skip ic f).2
        = format_json_response (errObj e) := by
  refine ⟨?_, ?_, ?_, ?_⟩
  · simp [ArticleTools.get_articles, truthyOptStr, h1]
  · simp [ArticleTools.get_articles, truthyOptStr, hpid, h2]
  · simp [ArticleTools.get_article, truthyOptStr, haid, h3]
  · simp [ArticleTools.get_article_children, truthyOptStr, haid, h4]

/-- Witness for C1: a client that always raises with message boom makes every
operation return the corresponding error JSON. -/
theorem error_mapping_all_ops_witness :
    (ArticleTools.get_articles (fun _ _ => .error "boom")
        none 20 0 false none).2
      = format_json_response (errObj "boom")
    ∧ (ArticleTools.get_articles (fun _ _ => .error "boom")
        (some "P") 20 0 false none).2
      = format_json_response (errObj "boom")
    ∧ (ArticleTools.get_article (fun _ _ => .error "boom")
        (some "A") true none).2
      = format_json_response (errObj "boom")
    ∧ (ArticleTools.get_article_children (fun _ _ => .error "boom")
        (some "A") 20 0 false none).2
      = format_json_response (errObj "boom") :=
  error_mapping_all_ops (fun _ _ => .error "boom") "boom" "P" "A" 20 0
    false true none (by decide) (by decide) rfl rfl rfl rfl

/-- C4: when fields is not supplied, the fields query parameter is the fixed
base selection string with content appended exactly when include_content is
true; under the default arguments the listing operations omit content
(include_content defaults to false) and the single-article fetch includes it
(include_content defaults to true). -/
theorem default_fields_selection (g : HttpGet) (top skip : Option Int)
    (ic : Bool) :
    ((ArticlesClient.list_articles g top skip ic none).1.map
        fun c => c.2.lookup "fields")
      = [some (.str ("id,idReadable,summary,project(id,shortName),reporter(id,login,name),updated,created,hasChildren,hasStar"
          ++ (if ic then ",content" else "")))]
    ∧ ((ArticlesClient.get_article g "A" ic none).1.map
        fun c => c.2.lookup "fields")
      = [some (.str ("id,idReadable,summary,project(id,shortName),reporter(id,login,name),updated,created,hasChildren,hasStar"
          ++ (if ic then ",content" else "")))]
    ∧ ((ArticleTools.get_articles g none).1.map fun c => c.2.lookup "fields")
      = [some (.str "id,idReadable,summary,project(id,shortName),reporter(id,login,name),updated,created,hasChildren,hasStar")]
    ∧ ((ArticleTools.get_article g (some "A")).1.map
        fun c => c.2.lookup "fields")
      = [some (.str "id,idReadable,summary,project(id,shortName),reporter(id,login,name),updated,created,hasChildren,hasStar,content")]
    ∧ ((ArticleTools.get_article_children g (some "A")).1.map
        fun c => c.2.lookup "fields")
      = [some (.str "id,idReadable,summary,project(id,shortName),reporter(id,login,name),updated,created,hasChildren,hasStar")] := by
  refine ⟨?_, ?_, ?_, ?_, ?_⟩
  · cases ic <;> rfl
  · cases ic <;> rfl
  · rfl
  · rfl
  · rfl

/-- Counterexample for C3: invoking the tool-level listing operation while
omitting limit and skip (so their defaults 20 and 0 apply) still sends both
pagination keys, with values 20 and 0, contradicting the part of the claim
that says neither key is present. -/
theorem pagination_omitted_defaults_sent :
    ((ArticleTools.get_articles (fun _ _ => .ok (.arr [])) none).1.map
        fun c => (c.2.lookup "$top", c.2.lookup "$skip"))
      = [(some (.int 20), some (.int 0))] := rfl

/-- C3 amended: supplying limit equal to 5 and skip equal to 10 to the
tool-level listing yields query parameters containing the key dollar-top
mapped to 5 and the key dollar-skip mapped to 10; omitting top and skip is
possible only at the API-client layer (where they default to None) and there
it yields neither key; tool-level invocations always send both keys because
the tool defaults limit to 20 and skip to 0 and passes them as integers. -/
theorem pagination_passthrough_amended (g : HttpGet) (pid : Option String)
    (ic : Bool) (f : Option String) (limit skip : Int) :
    ((ArticleTools.get_articles g pid 5 10 ic f).1.map
        fun c => (c.2.lookup "$top", c.2.lookup "$skip"))
      = [(some (.int 5), some (.int 10))]
    ∧ ((ArticleTools.get_articles g pid limit skip ic f).1.map
        fun c => (c.2.lookup "$top", c.2.lookup "$skip"))
      = [(some (.int limit), some (.int skip))]
    ∧ ((ArticlesClient.list_articles g none none ic f).1.map
        fun c => (c.2.lookup "$top", c.2.lookup "$skip"))
      = [(none, none)]
    ∧ ((ArticlesClient.list_articles g (some 5) (some 10) ic f).1.map
        fun c => (c.2.lookup "$top", c.2.lookup "$skip"))
      = [(some (.int 5), some (.int 10))] := by
  refine ⟨?_, ?_, ?_, ?_⟩
  · rw [get_articles_calls]
    simp [listParams_pagination]
  · rw [get_articles_calls]
    simp [listParams_pagination]
  · simp [ArticlesClient.list_articles, listParams_pagination]
  · simp [ArticlesClient.list_articles, listParams_pagination]

/-- A successful validation records exactly the response keys outside the
declared model names as extras. -/
theorem validate_extra (o : Params) (a : Article)
    (h : Article.model_validate (.obj o) = .ok a) :
    a.extra = o.filter (fun p => !(articleModelNames.contains p.1)) := by
  have h : Article.validateObj o = .ok a := h
  unfold Article.validateObj at h
  obtain ⟨id, hid, h⟩ := exceptBind_ok h
  obtain ⟨idReadable, hir, h⟩ := exceptBind_ok h
  obtain ⟨summary, hs, h⟩ := exceptBind_ok h
  obtain ⟨content, hc, h⟩ := exceptBind_ok h
  obtain ⟨project, hp, h⟩ := exceptBind_ok h
  obtain ⟨reporter, hr, h⟩ := exceptBind_ok h
  obtain ⟨updatedBy, hu, h⟩ := exceptBind_ok h
  obtain ⟨created, hcr, h⟩ := exceptBind_ok h
  obtain ⟨updated, hup, h⟩ := exceptBind_ok h
  obtain ⟨hasChildren, hhc, h⟩ := exceptBind_ok h
  obtain ⟨hasStar, hhs, h⟩ := exceptBind_ok h
  cases h
  rfl

/-- Filtering an association list by a predicate on keys alone never touches
the entries of a key the predicate keeps. -/
theorem lookup_filter_key (r : String → Bool) (k : String) (o : Params)
    (hr : r k = true) :
    (o.filter (fun p => r p.1)).lookup k = o.lookup k := by
  induction o with
  | nil => rfl
  | cons p rest ih =>
      obtain ⟨k1, v1⟩ := p
      by_cases hkk : k = k1
      · subst hkk
        simp [List.filter_cons, List.lookup, hr]
      · have hne : (k == k1) = false := beq_eq_false_iff_ne.mpr hkk
        by_cases h1 : r k1 = true
        · simp [List.filter_cons, List.lookup, h1, hne, ih]
        · simp only [Bool.not_eq_true] at h1
          simp [List.filter_cons, List.lookup, h1, hne, ih]

/-- Filtering away only declared-name keys never touches a key outside the
declared names. -/
theorem lookup_filter_not_names (k : String) (o : Params)
    (hk : ¬ k ∈ articleModelNames) :
    (o.filter (fun p => !(articleModelNames.contains p.1))).lookup k
      = o.lookup k := by
  have hr : (!(articleModelNames.contains k)) = true := by
    simp [hk]
  exact lookup_filter_key (fun s => !(articleModelNames.contains s)) k o hr

/-- C6: for every API response object, once it validates into an Article
record, every attribute not named on the model is preserved unchanged by the
round trip through model_dump; no unmodeled key is dropped. -/
theorem extra_fields_roundtrip (o : Params) (a : Article) (k : String)
    (h : Article.model_validate (.obj o) = .ok a)
    (hk : ¬ k ∈ articleModelNames) :
    (a.model_dump).lookup k = o.lookup k := by
  have hextra := validate_extra o a h
  have hks : ¬ (k = "id" ∨ k = "idReadable" ∨ k = "summary" ∨ k = "content"
      ∨ k = "project" ∨ k = "reporter" ∨ k = "updatedBy" ∨ k = "created"
      ∨ k = "updated" ∨ k = "hasChildren" ∨ k = "hasStar") := by
    simpa [articleModelNames] using hk
  push_neg at hks
  obtain ⟨k1, k2, k3, k4, k5, k6, k7, k8, k9, k10, k11⟩ := hks
  have b1 := beq_eq_false_iff_ne.mpr k1
  have b2 := beq_eq_false_iff_ne.mpr k2
  have b3 := beq_eq_false_iff_ne.mpr k3
  have b4 := beq_eq_false_iff_ne.mpr k4
  have b5 := beq_eq_false_iff_ne.mpr k5
  have b6 := beq_eq_false_iff_ne.mpr k6
  have b7 := beq_eq_false_iff_ne.mpr k7
  have b8 := beq_eq_false_iff_ne.mpr k8
  have b9 := beq_eq_false_iff_ne.mpr k9
  have b10 := beq_eq_false_iff_ne.mpr k10
  have b11 := beq_eq_false_iff_ne.mpr k11
  calc (a.model_dump).lookup k
      = a.extra.lookup k := by
        simp [Article.model_dump, List.lookup, b1, b2, b3, b4, b5, b6, b7,
          b8, b9, b10, b11]
    _ = o.lookup k := by
        rw [hextra]
        exact lookup_filter_not_names k o hk

/-- Witness for C6 at a concrete response carrying the unmodeled key tags. -/
theorem extra_fields_roundtrip_witness :
    Article.model_validate
        (.obj [("id", .str "1-0"), ("tags", .arr [.str "kb"])])
      = .ok { id := "1-0", extra := [("tags", .arr [.str "kb"])] }
    ∧ ¬ ("tags" ∈ articleModelNames)
    ∧ (Article.model_dump
        { id := "1-0", extra := [("tags", .arr [.str "kb"])] }).lookup "tags"
      = List.lookup "tags" [("id", JVal.str "1-0"), ("tags", .arr [.str "kb"])] :=
  ⟨rfl, by decide,
    extra_fields_roundtrip [("id", .str "1-0"), ("tags", .arr [.str "kb"])]
      { id := "1-0", extra := [("tags", .arr [.str "kb"])] } "tags"
      rfl (by decide)⟩

/-- A successful list validation has one record per response item, each the
validation of the item at the same position. -/
theorem validateAll_ok_spec (items : List JVal) (arts : List Article)
    (h : validateAll items = .ok arts) :
    arts.length = items.length
    ∧ ∀ i (hi : i < items.length) (hj : i < arts.length),
        Article.model_validate (items.get ⟨i, hi⟩)
          = .ok (arts.get ⟨i, hj⟩) := by
  induction items generalizing arts with
  | nil =>
      have h' : ([] : List Article) = arts := by injection h
      subst h'
      refine ⟨rfl, ?_⟩
      intro i hi hj
      simp at hi
  | cons x xs ih =>
      have h' : (do
          let a ← Article.model_validate x
          let rest ← validateAll xs
          Except.ok (a :: rest)) = Except.ok arts := h
      obtain ⟨a, ha, h'⟩ := exceptBind_ok h'
      obtain ⟨rest, hrest, h'⟩ := exceptBind_ok h'
      have h'' : a :: rest = arts := by injection h'
      subst h''
      obtain ⟨hlen, hpt⟩ := ih rest hrest
      refine ⟨by simp [hlen], ?_⟩
      intro i hi hj
      match i with
      | 0 => exact ha
      | Nat.succ n =>
          have hi' : n < xs.length := by
            simp only [List.length_cons] at hi
            omega
          have hj' : n < rest.length := by
            simp only [List.length_cons] at hj
            omega
          exact hpt n hi' hj'

/-- If any response item fails validation, the whole list validation raises. -/
theorem validateAll_error_of_mem (items : List JVal)
    (h : ∃ x ∈ items, ∃ e, Article.model_validate x = .error e) :
    ∃ e, validateAll items = .error e := by
  induction items with
  | nil => simp at h
  | cons x xs ih =>
      obtain ⟨y, hy, e, he⟩ := h
      cases hx : Article.model_validate x with
      | error e1 =>
          refine ⟨e1, ?_⟩
          show (do
              let a ← Article.model_validate x
              let rest ← validateAll xs
              Except.ok (a :: rest)) = Except.error e1
          rw [hx]
          rfl
      | ok a =>
          rcases List.mem_cons.mp hy with hyx | hyxs
          · subst hyx
            rw [hx] at he
            exact (Except.noConfusion he)
          · obtain ⟨e2, he2⟩ := ih ⟨y, hyxs, e, he⟩
            refine ⟨e2, ?_⟩
            show (do
                let a ← Article.model_validate x
                let rest ← validateAll xs
                Except.ok (a :: rest)) = Except.error e2
            rw [hx]
            show (do
                let rest ← validateAll xs
                Except.ok (a :: rest)) = Except.error e2
            rw [he2]
            rfl

/-- C7: for every well-formed remote response to the listing call (a JSON
list whose items all validate), the returned text is the JSON encoding of an
array with exactly one element per response item, each element containing at
least the key id, in the same order as the response. -/
theorem listing_wellformed_response (items : List JVal) (arts : List Article)
    (limit skip : Int) (ic : Bool) (f : Option String)
    (h : validateAll items = .ok arts) :
    (ArticleTools.get_articles (fun _ _ => .ok (.arr items))
        none limit skip ic f).2
      = format_json_response (.arr (arts.map fun a => .obj a.model_dump))
    ∧ arts.length = items.length
    ∧ (∀ i (hi : i < items.length) (hj : i < arts.length),
        Article.model_validate (items.get ⟨i, hi⟩)
          = .ok (arts.get ⟨i, hj⟩))
    ∧ ∀ a ∈ arts, (Article.model_dump a).lookup "id" = some (.str a.id) := by
  obtain ⟨hlen, hpt⟩ := validateAll_ok_spec items arts h
  refine ⟨?_, hlen, hpt, ?_⟩
  · simp [ArticleTools.get_articles, truthyOptStr,
      ArticlesClient.list_articles, Except.bind, h]
  · intro a _
    rfl

/-- Witness for C7 at a one-element response. -/
theorem listing_wellformed_response_witness :
    (ArticleTools.get_articles
        (fun _ _ => .ok (.arr [.obj [("id", .str "1-0")]]))
        none 20 0 false none).2
      = format_json_response
          (.arr (([{ id := "1-0" }] : List Article).map
            fun a => .obj a.model_dump)) :=
  (listing_wellformed_response [.obj [("id", .str "1-0")]]
    [{ id := "1-0" }] 20 0 false none rfl).1

/-- C8: for every listing call whose remote response contains at least one
item failing record validation, the returned text is a single error-object
payload, never a partially-parsed prefix of the items. -/
theorem listing_validation_failure_error_payload (items : List JVal)
    (pid : Option String) (limit skip : Int) (ic : Bool) (f : Option String)
    (h : ∃ x ∈ items, ∃ e, Article.model_validate x = .error e) :
    ∃ e, (ArticleTools.get_articles (fun _ _ => .ok (.arr items))
        pid limit skip ic f).2
      = format_json_response (errObj e) := by
  obtain ⟨e, he⟩ := validateAll_error_of_mem items h
  refine ⟨e, ?_⟩
  cases htr : truthyOptStr pid <;>
    simp [ArticleTools.get_articles, htr, ArticlesClient.list_articles,
      ArticlesClient.list_project_articles, Except.bind, he]

/-- Witness for C8 at a response whose single item is not an object. -/
theorem listing_validation_failure_error_payload_witness :
    ∃ e, (ArticleTools.get_articles (fun _ _ => .ok (.arr [.int 3]))
        none 20 0 false none).2
      = format_json_response (errObj e) :=
  listing_validation_failure_error_payload [.int 3] none 20 0 false none
    ⟨.int 3, by simp, "validation error for Article: input is not an object",
      rfl⟩
